import Mathlib

/-!
# Verification of the bounded async dispatch core of iwhitedark/Highload_2HW_Ver_1.0

Shallow embedding, in Lean 4, of the Go source of the repository:

* `utils/logger.go` (src/unnamed/part_000, second half): the three async
  dispatcher singletons — `AuditLogger`, `NotificationService`, `ErrorHandler` —
  each a buffered channel of capacity 10000, a `sync.WaitGroup` pending counter,
  one background consumer goroutine, and a synchronous overflow fallback.
* `metrics/metrics.go` (src/unnamed/part_000, first half): Prometheus counters
  and `MetricsMiddleware`, with the `responseWriter` status-capturing wrapper.
* `utils/rate_limiter.go`: the token-bucket admission gate
  (`golang.org/x/time/rate`, R = 1000 tokens/s, burst = 5000) and
  `RateLimitMiddleware`.
* `main.go` (src/unnamed/part_003): middleware registration order and the
  graceful-shutdown sequence.
* `models/user.go` and `services/user_service.go` (src/unnamed/part_001):
  the in-memory user store with sanitize/validate.

Modelling conventions:
* Go strings are modelled as lists of natural-number code points (`Str`);
  for the ASCII data handled here Go's byte-based `len` agrees with the
  code-point count.
* Time instants (`time.Time`) are abstracted to naturals; the RFC3339
  rendering of an instant is abstracted to its decimal rendering (injective,
  which is all the formatted log lines depend on).  The wall-clock prefix a
  `log.Logger` adds from `LstdFlags` (consumption-time, identical in shape on
  every line) is abstracted away from sink lines.
* The concurrent channel/WaitGroup protocol is sequentialised: `submit` is a
  producer step with an idle consumer, `consumeOne` is one iteration of the
  consumer goroutine, and `close` is `wg.Wait()` (the consumer runs until the
  pending counter is zero) followed by `close(chan)`.
-/

/-- A Go string, as its list of code points. -/
abbrev Str := List Nat

/-- Embed a Lean string literal as a `Str`. -/
def str (s : String) : Str := s.toList.map Char.toNat

/-- Test `startsW pat l` : `pat` occurs at the head of `l`. -/
def startsW : Str → Str → Bool
  | [], _ => true
  | _ :: _, [] => false
  | p :: ps, c :: cs => p = c && startsW ps cs

/-- Test `hasSub pat l` : `pat` occurs contiguously somewhere inside `l`. -/
def hasSub (pat : Str) : Str → Bool
  | [] => startsW pat []
  | c :: cs => startsW pat (c :: cs) || hasSub pat cs

/-- Decimal rendering of a natural number, as a `Str`
(abstracts Go's `%d` and the RFC3339 rendering of an abstracted instant). -/
def natStr (n : Nat) : Str := (toString n).toList.map Char.toNat

/-- Abstracted `time.Time` instant. -/
abbrev GoTime := Nat

section Dispatcher

/-!
## The async dispatcher pattern (`utils/logger.go`)

One state per dispatcher singleton: the channel buffer (`queue`), the
`sync.WaitGroup` counter (`pending`), the lines written so far to the primary
sink (`primary`) and to the overflow sink (`overflow`), whether the channel
has been closed, and how many times `Close` has been called.
-/

/-- State of one dispatcher instance (channel, WaitGroup, sinks). -/
structure Dispatcher (α : Type) where
  queue : List α
  pending : Nat
  primary : List Str
  overflow : List Str
  closed : Bool
  drainCalls : Nat
deriving Repr, DecidableEq

/-- A freshly constructed dispatcher: empty buffered channel, zero WaitGroup
counter, nothing written, not closed (the `once.Do` constructor bodies). -/
def Dispatcher.fresh {α : Type} : Dispatcher α :=
  { queue := [], pending := 0, primary := [], overflow := [],
    closed := false, drainCalls := 0 }

/-- Shared submit shape `submit cap ovLine d x` — the shared submit shape
(`LogUserAction` / `SendNotification` / `HandleError`):
`wg.Add(1)`, then `select` with a `default` branch.  If the channel buffer has
free capacity the payload is enqueued (the WaitGroup counter stays raised);
otherwise `wg.Done()` restores the counter and the overflow line is written
synchronously on the caller's thread. -/
def submit {α : Type} (cap : Nat) (ovLine : α → Str)
    (d : Dispatcher α) (x : α) : Dispatcher α :=
  if d.queue.length < cap then
    { d with queue := d.queue ++ [x], pending := d.pending + 1 }
  else
    { d with overflow := d.overflow ++ [ovLine x] }

/-- One iteration of the consumer goroutine (`for entry := range chan`):
remove the head payload, write its formatted line to the primary sink,
`wg.Done()`. -/
def consumeOne {α : Type} (line : α → Str) (d : Dispatcher α) : Dispatcher α :=
  match d.queue with
  | [] => d
  | x :: rest =>
    { d with queue := rest, primary := d.primary ++ [line x],
             pending := d.pending - 1 }

/-- Run `n` iterations of the consumer goroutine. -/
def consumeSteps {α : Type} (line : α → Str) : Nat → Dispatcher α → Dispatcher α
  | 0, d => d
  | n + 1, d => consumeSteps line n (consumeOne line d)

/-- Drain, `AuditLogger.Close` (the only drain operation the source defines):
`wg.Wait()` blocks until the pending counter reaches zero — i.e. the consumer
has processed every enqueued payload — then `close(logChan)` terminates the
consumer loop. -/
def close {α : Type} (line : α → Str) (d : Dispatcher α) : Dispatcher α :=
  let d' := consumeSteps line d.queue.length d
  { d' with closed := true, drainCalls := d.drainCalls + 1 }

/-- Submit a whole list of payloads in order. -/
def submitAll {α : Type} (cap : Nat) (ovLine : α → Str)
    (d : Dispatcher α) (xs : List α) : Dispatcher α :=
  xs.foldl (submit cap ovLine) d

/-- Channel capacity of all three dispatchers (`make(chan …, 10000)`). -/
def chanCap : Nat := 10000

/-! ### The audit dispatcher (`AuditLogger`) -/

/-- One audit payload, `LogEntry`. -/
structure LogEntry where
  action : Str
  userID : Nat
  details : Str
  timestamp : GoTime
deriving Repr, DecidableEq

/-- Primary-sink line of the audit consumer:
logger prefix `"[AUDIT] "` plus
`"Action: %s | UserID: %d | Details: %s | Time: %s"` with the entry's
original submission timestamp. -/
def auditLine (e : LogEntry) : Str :=
  str "[AUDIT] " ++ str "Action: " ++ e.action ++ str " | UserID: " ++
    natStr e.userID ++ str " | Details: " ++ e.details ++ str " | Time: " ++
    natStr e.timestamp

/-- Overflow line of `LogUserAction`'s `default` branch:
`"[OVERFLOW] Action: %s | UserID: %d | Details: %s"` under the same logger
prefix. -/
def auditOverflowLine (e : LogEntry) : Str :=
  str "[AUDIT] " ++ str "[OVERFLOW] Action: " ++ e.action ++
    str " | UserID: " ++ natStr e.userID ++ str " | Details: " ++ e.details

/-- Submit an audit payload, `AuditLogger.LogUserAction`: builds the entry with
`Timestamp: time.Now()` — the current instant at submission — then submits. -/
def logUserAction (d : Dispatcher LogEntry) (now : GoTime)
    (action : Str) (userID : Nat) (details : Str) : Dispatcher LogEntry :=
  submit chanCap auditOverflowLine d
    { action := action, userID := userID, details := details, timestamp := now }

/-! ### The notification dispatcher (`NotificationService`) -/

/-- One notification payload, `Notification`.  Note: the source struct has no
timestamp field. -/
structure Notification where
  userID : Nat
  ntype : Str
  message : Str
deriving Repr, DecidableEq

/-- Primary-sink line of the notification consumer:
`"[NOTIFICATION] Type: %s | UserID: %d | Message: %s"`. -/
def notificationLine (n : Notification) : Str :=
  str "[NOTIFICATION] Type: " ++ n.ntype ++ str " | UserID: " ++
    natStr n.userID ++ str " | Message: " ++ n.message

/-- Overflow line of `SendNotification`'s `default` branch:
`"[NOTIFICATION OVERFLOW] Type: %s | UserID: %d"`. -/
def notificationOverflowLine (n : Notification) : Str :=
  str "[NOTIFICATION OVERFLOW] Type: " ++ n.ntype ++ str " | UserID: " ++
    natStr n.userID

/-- Submit a notification, `NotificationService.SendNotification` (no timestamp is captured). -/
def sendNotification (d : Dispatcher Notification) (userID : Nat)
    (ntype message : Str) : Dispatcher Notification :=
  submit chanCap notificationOverflowLine d
    { userID := userID, ntype := ntype, message := message }

/-! ### The error dispatcher (`ErrorHandler`) -/

/-- One error payload, `ErrorEntry`.  The Go `error` value may be `nil`
(`Option`); `%v` renders `nil` as `"<nil>"`. -/
structure ErrorEntry where
  operation : Str
  errorMsg : Option Str
  context : Str
  timestamp : GoTime
deriving Repr, DecidableEq

/-- Rendering by `%v` of a possibly-nil Go error. -/
def errStr : Option Str → Str
  | none => str "<nil>"
  | some e => e

/-- Primary-sink line of the error consumer: logger prefix `"[ERROR] "` plus
`"Operation: %s | Error: %v | Context: %s | Time: %s"` with the entry's
original submission timestamp. -/
def errorLine (e : ErrorEntry) : Str :=
  str "[ERROR] " ++ str "Operation: " ++ e.operation ++ str " | Error: " ++
    errStr e.errorMsg ++ str " | Context: " ++ e.context ++ str " | Time: " ++
    natStr e.timestamp

/-- Overflow line of `HandleError`'s `default` branch:
`"[OVERFLOW] Operation: %s | Error: %v"` under the same logger prefix. -/
def errorOverflowLine (e : ErrorEntry) : Str :=
  str "[ERROR] " ++ str "[OVERFLOW] Operation: " ++ e.operation ++
    str " | Error: " ++ errStr e.errorMsg

/-- Submit an error record, `ErrorHandler.HandleError`: builds the entry with
`Timestamp: time.Now()` at submission, then submits. -/
def handleError (d : Dispatcher ErrorEntry) (now : GoTime)
    (operation : Str) (err : Option Str) (context : Str) :
    Dispatcher ErrorEntry :=
  submit chanCap errorOverflowLine d
    { operation := operation, errorMsg := err, context := context,
      timestamp := now }

end Dispatcher

section Limiter

/-!
## The admission gate (`utils/rate_limiter.go` over `golang.org/x/time/rate`)

The token bucket of `rate.Limiter`, with exact rational arithmetic in place of
`float64` and instants as rationals.  `rate.NewLimiter(r, b)` starts with a
zero `last` instant, so the first `advance` fills the bucket to the burst
ceiling; we model the construction-time state directly as a full bucket. -/

/-- Token-bucket state of a `rate.Limiter`. -/
structure Limiter where
  limit : ℚ
  burst : ℚ
  tokens : ℚ
  last : ℚ
deriving DecidableEq

/-- Constructor `rate.NewLimiter(r, b)`: rate `r`, burst `b`, bucket full at first use. -/
def newLimiter (r b : ℚ) : Limiter :=
  { limit := r, burst := b, tokens := b, last := 0 }

/-- Lazy refill, `Limiter.advance`: tokens available at instant `now`, after lazily
refilling for the elapsed time, capped at the burst ceiling. -/
def Limiter.advance (l : Limiter) (now : ℚ) : ℚ :=
  min l.burst (l.tokens + (now - l.last) * l.limit)

/-- Admission check `Limiter.Allow` = `AllowN(now, 1)` via `reserveN`: after advancing, if at
least one token is available it is consumed and the state committed;
otherwise the state is left as it was (`lim.last = last`). -/
def Limiter.allowAt (l : Limiter) (now : ℚ) : Bool × Limiter :=
  let t := l.advance now
  if 1 ≤ t then (true, { l with tokens := t - 1, last := now })
  else (false, l)

/-- Make `n` consecutive `Allow` calls at the same instant. -/
def Limiter.allowTimes (l : Limiter) (now : ℚ) : Nat → List Bool × Limiter
  | 0 => ([], l)
  | n + 1 =>
    let p := l.allowAt now
    let q := p.2.allowTimes now n
    (p.1 :: q.1, q.2)

/-- The process-wide gate of `rate_limiter.go`:
`rate.NewLimiter(rate.Limit(1000), 5000)`. -/
def globalLimiter : Limiter := newLimiter 1000 5000

end Limiter

section Middleware

/-!
## The HTTP middleware chain (`metrics.go`, `rate_limiter.go`, `main.go`)

`main.go` registers `router.Use(metrics.MetricsMiddleware)` and then
`router.Use(utils.RateLimitMiddleware)`; `gorilla/mux` wraps the matched
handler with the registered middlewares so that the first registered is the
outermost.  The per-request effect is modelled as a state transformer over the
metric counters, the limiter, and the error dispatcher; the response-write
path is modelled as the list of `WriteHeader` calls the downstream code makes.
-/

/-- An inbound request: method, raw URL path, and the mux route template when
the router matched one. -/
structure Request where
  method : Str
  urlPath : Str
  routeTemplate : Option Str
deriving Repr, DecidableEq

/-- The Prometheus counters of `metrics.go`.  Each counter family is the list
of label tuples of its `Inc`/`Observe` calls so far, so increments are
countable; the gauge is an integer. -/
structure MetricsState where
  totalRequests : List (Str × Str × Str)
  durationObs : List (Str × Str)
  requestsInFlight : Int
  errorsTotal : List (Str × Str × Str)
  rateLimitHits : Nat
deriving DecidableEq

/-- All counters at zero. -/
def MetricsState.empty : MetricsState :=
  { totalRequests := [], durationObs := [], requestsInFlight := 0,
    errorsTotal := [], rateLimitHits := 0 }

/-- Counter bump `metrics.IncrementRateLimitHits` (`RateLimitHits.Inc()`). -/
def IncrementRateLimitHits (m : MetricsState) : MetricsState :=
  { m with rateLimitHits := m.rateLimitHits + 1 }

/-- Process state a request can touch on the middleware path. -/
structure ServerState where
  metrics : MetricsState
  limiter : Limiter
  now : ℚ
  nowClock : GoTime
  errs : Dispatcher ErrorEntry
deriving DecidableEq

/-- A handler: consumes a request and state, produces the sequence of
`WriteHeader` calls made on the response writer plus the new state. -/
abbrev HttpHandler := Request → ServerState → List Nat × ServerState

/-- The `responseWriter` wrapper of `metrics.go`: it holds the captured
status code, initialised to `http.StatusOK` (200) by `newResponseWriter`. -/
structure RespWriter where
  statusCode : Nat
deriving DecidableEq

/-- Constructor `newResponseWriter`: the captured status starts at 200. -/
def newResponseWriter : RespWriter := { statusCode := 200 }

/-- Status capture `responseWriter.WriteHeader`: unconditionally overwrites the captured
status with the code of this call. -/
def RespWriter.writeHeader (_ : RespWriter) (code : Nat) : RespWriter :=
  { statusCode := code }

/-- The status `metrics.go` records for a request whose downstream code made
the given sequence of `WriteHeader` calls. -/
def recordedStatus (writes : List Nat) : Nat :=
  (writes.foldl RespWriter.writeHeader newResponseWriter).statusCode

/-- Admission gate `utils.RateLimitMiddleware`: if `globalLimiter.Allow()` fails, respond
`http.Error(w, "Too Many Requests", http.StatusTooManyRequests)` (one
`WriteHeader(429)` call), fire `go LogError("rate_limit", nil, "Rate limit
exceeded for request: " + path)` — a fire-and-forget `HandleError` submission
to the error dispatcher — and return without calling `next`. -/
def RateLimitMiddleware (next : HttpHandler) : HttpHandler := fun req s =>
  if (s.limiter.allowAt s.now).1 then
    next req { s with limiter := (s.limiter.allowAt s.now).2 }
  else
    ([429],
      { s with limiter := (s.limiter.allowAt s.now).2,
               errs := handleError s.errs s.nowClock (str "rate_limit") none
                 (str "Rate limit exceeded for request: " ++ req.urlPath) })

/-- Observation middleware `metrics.MetricsMiddleware`: skip the `/metrics` endpoint; otherwise
increment the in-flight gauge, run the rest of the chain with the wrapping
`responseWriter`, then record the request counter (labelled with the captured
status), one latency observation, the gauge decrement, and — for statuses
≥ 400 — the error counter with class `client_error`/`server_error`. -/
def MetricsMiddleware (next : HttpHandler) : HttpHandler := fun req s =>
  if req.urlPath = str "/metrics" then next req s
  else
    let s1 := { s with metrics :=
      { s.metrics with requestsInFlight := s.metrics.requestsInFlight + 1 } }
    let path := req.routeTemplate.getD req.urlPath
    let r := next req s1
    let status := recordedStatus r.1
    let m1 := { r.2.metrics with
      totalRequests :=
        r.2.metrics.totalRequests ++ [(req.method, path, natStr status)],
      durationObs := r.2.metrics.durationObs ++ [(req.method, path)],
      requestsInFlight := r.2.metrics.requestsInFlight - 1 }
    let m2 :=
      if 400 ≤ status then
        { m1 with errorsTotal := m1.errorsTotal ++
            [(req.method, path,
              if 500 ≤ status then str "server_error" else str "client_error")] }
      else m1
    (r.1, { r.2 with metrics := m2 })

/-- The middleware chain `main.go` installs around every matched route:
`MetricsMiddleware` outermost (registered first), then
`RateLimitMiddleware`, then the business handler. -/
def appliedChain (h : HttpHandler) : HttpHandler :=
  MetricsMiddleware (RateLimitMiddleware h)

end Middleware

section Shutdown

/-!
## Graceful shutdown (`main.go`, lines 80–96)

After `<-quit` (SIGINT/SIGTERM) `main` calls `server.Shutdown(ctx)` with a
30-second timeout, logs, and returns — whereupon the process terminates.  No
dispatcher operation appears anywhere in the sequence: `AuditLogger.Close`
(the only drain operation defined in the source) is called from no file, and
`NotificationService` and `ErrorHandler` define no drain operation at all. -/

/-- Whole-process state at shutdown time: the three dispatcher singletons and
whether the HTTP server is still accepting requests. -/
structure SystemState where
  audit : Dispatcher LogEntry
  notif : Dispatcher Notification
  errs : Dispatcher ErrorEntry
  serverRunning : Bool
deriving DecidableEq

/-- The shutdown sequence of `main`: stop the HTTP server and return.  It
performs no operation on `audit`, `notif` or `errs`. -/
def mainGracefulShutdown (s : SystemState) : SystemState :=
  { s with serverRunning := false }

end Shutdown

section Users

/-!
## The user model and store (`models/user.go`, `services/user_service.go`)

Character classes are taken from the source: `strings.TrimSpace` trims
`unicode.IsSpace` characters (here the ASCII/Latin-1 ones — space, TAB, LF,
VT, FF, CR; exotic Unicode spaces play no role for the properties proved),
`strings.ToLower` lowercases (ASCII range suffices for the regex classes),
and the email pattern is `^[a-zA-Z0-9._%+\-]+@[a-zA-Z0-9.\-]+\.[a-zA-Z]{2,}$`.
-/

/-- Whitespace test `unicode.IsSpace` on the Latin-1 whitespace code points. -/
def isSpaceRune (c : Nat) : Bool :=
  c = 32 || c = 9 || c = 10 || c = 11 || c = 12 || c = 13

/-- One character of `strings.ToLower`: `A`–`Z` (65–90) maps to `a`–`z`. -/
def toLowerRune (c : Nat) : Nat :=
  if 65 ≤ c ∧ c ≤ 90 then c + 32 else c

/-- Drop the leading whitespace run. -/
def trimL (l : Str) : Str := l.dropWhile isSpaceRune

/-- Drop the trailing whitespace run. -/
def trimR (l : Str) : Str := (l.reverse.dropWhile isSpaceRune).reverse

/-- Go `strings.TrimSpace`. -/
def trimSpace (l : Str) : Str := trimR (trimL l)

/-- Go `strings.ToLower`. -/
def toLowerStr (l : Str) : Str := l.map toLowerRune

/-- Class `[a-zA-Z]`. -/
def isAlphaRune (c : Nat) : Bool :=
  (65 ≤ c && c ≤ 90) || (97 ≤ c && c ≤ 122)

/-- Class `[a-zA-Z0-9]`. -/
def isAlnumRune (c : Nat) : Bool :=
  isAlphaRune c || (48 ≤ c && c ≤ 57)

/-- The local-part class `[a-zA-Z0-9._%+\-]`
(`.` 46, `_` 95, `%` 37, `+` 43, `-` 45). -/
def isLocalRune (c : Nat) : Bool :=
  isAlnumRune c || c = 46 || c = 95 || c = 37 || c = 43 || c = 45

/-- The domain-body class `[a-zA-Z0-9.\-]`. -/
def isDomainRune (c : Nat) : Bool :=
  isAlnumRune c || c = 46 || c = 45

/-- The part of the email pattern after `@`:
`[a-zA-Z0-9.\-]+\.[a-zA-Z]{2,}$`.  Anchored at the end, the `[a-zA-Z]{2,}`
block must cover the maximal trailing alphabetic run, so the literal dot is
the character just before that run and the body is everything before the
dot. -/
def matchDomain (d : Str) : Bool :=
  let rd := d.reverse
  let tld := rd.takeWhile isAlphaRune
  match rd.dropWhile isAlphaRune with
  | c :: body =>
    (c == 46) && 2 ≤ tld.length && !body.isEmpty && body.all isDomainRune
  | [] => false

/-- The anchored email pattern of `models/user.go`.  Neither character class
contains `@`, so a match splits the string at its unique `@`: a nonempty
all-local-class part before it, no further `@` after it, and a domain match
after it. -/
def matchEmail (s : Str) : Bool :=
  let lpart := s.takeWhile (fun c => !(c == 64))
  match s.dropWhile (fun c => !(c == 64)) with
  | [] => false
  | _ :: domain =>
    !lpart.isEmpty && lpart.all isLocalRune &&
      domain.all (fun c => !(c == 64)) && matchDomain domain

/-- Record `models.User`. -/
structure User where
  id : Int
  name : Str
  email : Str
deriving Repr, DecidableEq

/-- Validation `User.Validate`: the first failing check's message, or `none` when the
data is valid.  `len` on the ASCII data modelled here is the code-point
count. -/
def User.validate (u : User) : Option Str :=
  if trimSpace u.name = [] then some (str "name is required")
  else if u.name.length < 2 then some (str "name must be at least 2 characters")
  else if u.name.length > 100 then some (str "name must not exceed 100 characters")
  else if trimSpace u.email = [] then some (str "email is required")
  else if !matchEmail u.email then some (str "invalid email format")
  else none

/-- Normalisation `User.Sanitize`: trim the name, trim-and-lowercase the email. -/
def User.sanitize (u : User) : User :=
  { u with name := trimSpace u.name,
           email := toLowerStr (trimSpace u.email) }

/-- Store `services.UserService`: the in-memory store (`map[int]*models.User`,
modelled as an association list with at most one binding per key in use) and
the atomic id counter.  The `ActiveUsers` gauge updates are orthogonal to the
store and omitted. -/
structure UserService where
  users : List (Int × User)
  idCounter : Int
deriving Repr, DecidableEq

/-- The `once.Do` initial state: empty map, counter zero. -/
def UserService.empty : UserService := { users := [], idCounter := 0 }

/-- Go map read `m[k]`. -/
def mapFind (k : Int) : List (Int × User) → Option User
  | [] => none
  | p :: rest => if p.1 = k then some p.2 else mapFind k rest

/-- Go map write `m[k] = v`. -/
def mapSet (k : Int) (v : User) : List (Int × User) → List (Int × User)
  | [] => [(k, v)]
  | p :: rest => if p.1 = k then (k, v) :: rest else p :: mapSet k v rest

/-- Go map `delete(m, k)`. -/
def mapDel (k : Int) : List (Int × User) → List (Int × User)
  | [] => []
  | p :: rest => if p.1 = k then mapDel k rest else p :: mapDel k rest

/-- Operation `UserService.Create`: sanitize, validate (store untouched on failure),
assign the next counter value as the id, store the user under it. -/
def UserService.create (s : UserService) (user : User) :
    Except Str User × UserService :=
  let u := user.sanitize
  match u.validate with
  | some e => (.error e, s)
  | none =>
    let newID := s.idCounter + 1
    let u' := { u with id := newID }
    (.ok u', { users := mapSet newID u' s.users, idCounter := newID })

/-- Operation `UserService.Update`: sanitize, validate, look the id up (store untouched
on either failure), then overwrite only `Name` and `Email` of the stored
user, preserving its `ID`, and return a copy. -/
def UserService.update (s : UserService) (id : Int) (updated : User) :
    Except Str User × UserService :=
  let u := updated.sanitize
  match u.validate with
  | some e => (.error e, s)
  | none =>
    match mapFind id s.users with
    | none => (.error (str "user not found"), s)
    | some existing =>
      let nu := { existing with name := u.name, email := u.email }
      (.ok nu, { s with users := mapSet id nu s.users })

/-- Operation `UserService.Delete`: remove the binding when present. -/
def UserService.delete (s : UserService) (id : Int) :
    Except Str Unit × UserService :=
  match mapFind id s.users with
  | none => (.error (str "user not found"), s)
  | some _ => (.ok (), { s with users := mapDel id s.users })

/-- Operation `UserService.Clear`: empty the map and reset the counter. -/
def UserService.clear (_ : UserService) : UserService := UserService.empty

/-- The store invariant of claim C9: every stored record has a trimmed name
of length 2–100 and a trimmed, lowercase email matching the email pattern. -/
def goodUser (u : User) : Prop :=
  trimSpace u.name = u.name ∧ 2 ≤ u.name.length ∧ u.name.length ≤ 100 ∧
    trimSpace u.email = u.email ∧ toLowerStr u.email = u.email ∧
    matchEmail u.email = true

/-- The invariant holds of every record in the store. -/
def storeInv (s : UserService) : Prop := ∀ p ∈ s.users, goodUser p.2

end Users

section ExampleInputs

/-!
## Concrete inputs used by counterexamples and witnesses
-/

/-- A GET request for the user-list route. -/
def req0 : Request :=
  { method := str "GET", urlPath := str "/api/users",
    routeTemplate := some (str "/api/users") }

/-- The global limiter at an instant where its bucket is empty. -/
def lim0 : Limiter := { limit := 1000, burst := 5000, tokens := 0, last := 0 }

/-- Process state with zeroed counters and an empty bucket. -/
def st0 : ServerState :=
  { metrics := MetricsState.empty, limiter := lim0, now := 0, nowClock := 7,
    errs := Dispatcher.fresh }

/-- A business handler that answers 200. -/
def h200 : HttpHandler := fun _ s => ([200], s)

/-- Three audit submissions with subject ids 1, 2, 3 (Scenario A shape). -/
def entries3 : List LogEntry :=
  [{ action := str "CREATE", userID := 1, details := str "", timestamp := 11 },
   { action := str "UPDATE", userID := 2, details := str "", timestamp := 12 },
   { action := str "DELETE", userID := 3, details := str "", timestamp := 13 }]

/-- System state at the moment SIGTERM arrives, with one accepted audit
payload still queued. -/
def c1State : SystemState :=
  { audit := logUserAction Dispatcher.fresh 5 (str "CREATE") 1 (str ""),
    notif := Dispatcher.fresh, errs := Dispatcher.fresh,
    serverRunning := true }

/-- A notification dispatcher whose channel buffer is full. -/
def fullNotif : Dispatcher Notification :=
  { (Dispatcher.fresh : Dispatcher Notification) with
      queue := List.replicate chanCap
        { userID := 0, ntype := str "T", message := str "M" } }

/-- A sample notification payload. -/
def notif0 : Notification :=
  { userID := 1, ntype := str "WELCOME", message := str "hello" }

/-- A valid user payload carrying a client-chosen id and unnormalised data. -/
def uEx : User := { id := 99, name := str " Jon ", email := str " A@B.CO " }

/-- A one-user store. -/
def sEx : UserService :=
  { users := [(1, { id := 1, name := str "Jo", email := str "a@b.co" })],
    idCounter := 1 }

end ExampleInputs

/-!
## Lemmas about the dispatcher pattern
-/

theorem submit_fits {α : Type} (cap : Nat) (ov : α → Str) (d : Dispatcher α)
    (x : α) (h : d.queue.length < cap) :
    submit cap ov d x =
      { d with queue := d.queue ++ [x], pending := d.pending + 1 } := by
  simp [submit, h]

theorem submit_full {α : Type} (cap : Nat) (ov : α → Str) (d : Dispatcher α)
    (x : α) (h : cap ≤ d.queue.length) :
    submit cap ov d x = { d with overflow := d.overflow ++ [ov x] } := by
  simp [submit, Nat.not_lt.mpr h]

theorem submitAll_fits {α : Type} (cap : Nat) (ov : α → Str) (xs : List α) :
    ∀ d : Dispatcher α, d.queue.length + xs.length ≤ cap →
      submitAll cap ov d xs =
        { d with queue := d.queue ++ xs, pending := d.pending + xs.length } := by
  induction xs with
  | nil => intro d _; simp [submitAll]
  | cons x xs ih =>
    intro d h
    have hx : d.queue.length < cap := by
      simp only [List.length_cons] at h; omega
    have step : submitAll cap ov d (x :: xs) =
        submitAll cap ov (submit cap ov d x) xs := by
      simp [submitAll]
    rw [step, submit_fits cap ov d x hx, ih]
    · simp [List.append_assoc]
      omega
    · simp only [List.length_append, List.length_cons, List.length_nil] at h ⊢
      omega

theorem consumeSteps_drains {α : Type} (line : α → Str) (q : List α) :
    ∀ (p : Nat) (pri ov : List Str) (cl : Bool) (dc : Nat),
      consumeSteps line q.length
          { queue := q, pending := p, primary := pri, overflow := ov,
            closed := cl, drainCalls := dc } =
        { queue := [], pending := p - q.length, primary := pri ++ q.map line,
          overflow := ov, closed := cl, drainCalls := dc } := by
  induction q with
  | nil => intro p pri ov cl dc; simp [consumeSteps]
  | cons x q ih =>
    intro p pri ov cl dc
    have : consumeOne line
        { queue := x :: q, pending := p, primary := pri, overflow := ov,
          closed := cl, drainCalls := dc } =
        { queue := q, pending := p - 1, primary := pri ++ [line x],
          overflow := ov, closed := cl, drainCalls := dc } := by
      simp [consumeOne]
    rw [List.length_cons, consumeSteps, this, ih]
    simp [List.append_assoc]
    omega

theorem startsW_extend (p l t : Str) (h : startsW p l = true) :
    startsW p (l ++ t) = true := by
  induction p generalizing l with
  | nil => simp [startsW]
  | cons a ps ih =>
    cases l with
    | nil => simp [startsW] at h
    | cons c cs =>
      simp only [startsW, Bool.and_eq_true, decide_eq_true_eq] at h
      simp only [List.cons_append, startsW, Bool.and_eq_true,
        decide_eq_true_eq]
      exact ⟨h.1, ih cs h.2⟩

theorem startsW_extend2 (p a b t : Str) (h : startsW p (a ++ b) = true) :
    startsW p (a ++ (b ++ t)) = true := by
  rw [← List.append_assoc]
  exact startsW_extend _ _ _ h

/-- Claim C5: for every sequence of submissions to the audit dispatcher that
fits within the queue capacity, followed by `Close`: exactly those payloads
are written to the primary sink, in submission order, before drain returns;
nothing overflows; the pending counter is zero; and the queue is closed so
the consumer loop terminates. -/
theorem c5_fifo_drain_completeness (entries : List LogEntry)
    (h : entries.length ≤ chanCap) :
    close auditLine (submitAll chanCap auditOverflowLine Dispatcher.fresh entries) =
      { queue := [], pending := 0, primary := entries.map auditLine,
        overflow := [], closed := true, drainCalls := 1 } := by
  have hs := submitAll_fits chanCap auditOverflowLine entries Dispatcher.fresh
    (by simpa [Dispatcher.fresh] using h)
  rw [hs]
  simp only [Dispatcher.fresh, List.nil_append, Nat.zero_add]
  rw [close]
  have := consumeSteps_drains auditLine entries entries.length [] [] false 0
  simp only [this]
  simp

/-- Witness for C5 at the three Scenario-A submissions. -/
theorem c5_witness :
    entries3.length ≤ chanCap ∧
      close auditLine
          (submitAll chanCap auditOverflowLine Dispatcher.fresh entries3) =
        { queue := [], pending := 0, primary := entries3.map auditLine,
          overflow := [], closed := true, drainCalls := 1 } :=
  ⟨by decide, c5_fifo_drain_completeness entries3 (by decide)⟩

/-!
## Claim C4: the overflow path
-/

/-- Counterexample to C4 as stated: with the notification dispatcher's queue
full, the payload is indeed rejected from the queue and written synchronously
to the overflow sink with the pending counter unchanged — but the line is
tagged `[NOTIFICATION OVERFLOW]`, and the claimed `[OVERFLOW]` tag does not
occur in it. -/
theorem c4_counterexample :
    (sendNotification fullNotif 1 (str "WELCOME") (str "hello")).queue =
        fullNotif.queue ∧
      (sendNotification fullNotif 1 (str "WELCOME") (str "hello")).pending =
        fullNotif.pending ∧
      (sendNotification fullNotif 1 (str "WELCOME") (str "hello")).overflow =
        [notificationOverflowLine notif0] ∧
      hasSub (str "[OVERFLOW]") (notificationOverflowLine notif0) = false := by
  have hfull : chanCap ≤ fullNotif.queue.length := by
    simp [fullNotif, Dispatcher.fresh]
  have hsub := submit_full chanCap notificationOverflowLine fullNotif
    { userID := 1, ntype := str "WELCOME", message := str "hello" } hfull
  refine ⟨?_, ?_, ?_, by decide⟩ <;>
    (simp only [sendNotification]; rw [hsub];
      try simp [fullNotif, Dispatcher.fresh, notif0])

/-- Claim C1, evaluated at the failing input: in a system state holding one
accepted (enqueued, unconsumed) audit payload, the graceful-shutdown sequence
of `main` stops the HTTP server but performs zero drain operations on every
dispatcher instance; the accepted payload is still queued and nothing has
been written to the primary sink when the process terminates, so the payload
is discarded without reaching any sink. -/
theorem c1_shutdown_discards_payload :
    (mainGracefulShutdown c1State).serverRunning = false ∧
      (mainGracefulShutdown c1State).audit.drainCalls = 0 ∧
      (mainGracefulShutdown c1State).audit.queue ≠ [] ∧
      (mainGracefulShutdown c1State).audit.primary = [] ∧
      (mainGracefulShutdown c1State).notif.drainCalls = 0 ∧
      (mainGracefulShutdown c1State).errs.drainCalls = 0 := by
  refine ⟨rfl, rfl, ?_, rfl, rfl, rfl⟩
  simp [mainGracefulShutdown, c1State, logUserAction, submit, chanCap,
    Dispatcher.fresh]

/-- Counterexample to C8 as stated: after the call sequence
`WriteHeader(404); WriteHeader(500)` the wrapper has captured 500 — the last,
not the first, status-setting call is authoritative. -/
theorem c8_counterexample :
    recordedStatus [404, 500] = 500 ∧ recordedStatus [404, 500] ≠ 404 := by
  exact ⟨rfl, by decide⟩

/-- Claim C8 (amended): the captured status code is the one of the last
`WriteHeader` call made on the response-write path (every call overwrites the
stored code), and defaults to 200 when no call is ever made. -/
theorem c8_last_status_wins (writes : List Nat) :
    recordedStatus writes = writes.getLast?.getD 200 ∧ recordedStatus [] = 200 := by
  constructor
  · have general : ∀ (l : List Nat) (rw : RespWriter),
        (l.foldl RespWriter.writeHeader rw).statusCode =
          l.getLast?.getD rw.statusCode := by
      intro l
      induction l with
      | nil => intro rw; rfl
      | cons a l ih =>
        intro rw
        cases l with
        | nil => rfl
        | cons b m =>
          rw [List.foldl_cons, ih, List.getLast?_cons_cons]
          rfl
    exact general writes newResponseWriter
  · rfl

/-!
## Claim C7: submission timestamps
-/

/-- Counterexample to C7 as stated: a notification submitted at instant
123456789 (the `Notification` struct has no timestamp field, so
`SendNotification` cannot record the instant) produces a primary-sink line
that contains no rendering of that submission instant — the line depends on
the payload fields alone. -/
theorem c7_counterexample :
    (close notificationLine
        (sendNotification Dispatcher.fresh 1 (str "WELCOME")
          (str "hello"))).primary = [notificationLine notif0] ∧
      hasSub (natStr 123456789) (notificationLine notif0) = false := by
  constructor
  · decide
  · decide

/-- Claim C7 (amended): audit and error payloads carry a capture timestamp
assigned at submission time — the enqueued entry's timestamp field is the
`time.Now()` of the submitting call — and their primary-sink lines include
the kind/operation tag, the subject id, the contextual text and end with the
rendering of that original submission timestamp; notification payloads carry
no capture timestamp at all. -/
theorem c7_submission_timestamps (d : Dispatcher LogEntry)
    (de : Dispatcher ErrorEntry) (now : GoTime) (action det op ctx : Str)
    (uid : Nat) (err : Option Str)
    (hd : d.queue.length < chanCap) (he : de.queue.length < chanCap) :
    ((logUserAction d now action uid det).queue =
        d.queue ++ [{ action := action, userID := uid, details := det,
                      timestamp := now }] ∧
      (handleError de now op err ctx).queue =
        de.queue ++ [{ operation := op, errorMsg := err, context := ctx,
                       timestamp := now }]) ∧
      (∀ e : LogEntry, ∃ pre, auditLine e = pre ++ natStr e.timestamp) ∧
      (∀ e : ErrorEntry, ∃ pre, errorLine e = pre ++ natStr e.timestamp) := by
  refine ⟨⟨?_, ?_⟩, ?_, ?_⟩
  · simp only [logUserAction]
    rw [submit_fits _ _ _ _ hd]
  · simp only [handleError]
    rw [submit_fits _ _ _ _ he]
  · intro e
    exact ⟨str "[AUDIT] " ++ str "Action: " ++ e.action ++
      str " | UserID: " ++ natStr e.userID ++ str " | Details: " ++
      e.details ++ str " | Time: ", by simp [auditLine, List.append_assoc]⟩
  · intro e
    exact ⟨str "[ERROR] " ++ str "Operation: " ++ e.operation ++
      str " | Error: " ++ errStr e.errorMsg ++ str " | Context: " ++
      e.context ++ str " | Time: ", by simp [errorLine, List.append_assoc]⟩

/-- Witness for C7 (amended) at one audit submission into a fresh
dispatcher. -/
theorem c7_witness :
    (Dispatcher.fresh : Dispatcher LogEntry).queue.length < chanCap ∧
      (logUserAction Dispatcher.fresh 42 (str "CREATE") 1 (str "")).queue =
        (Dispatcher.fresh : Dispatcher LogEntry).queue ++
          [{ action := str "CREATE", userID := 1, details := str "",
             timestamp := 42 }] :=
  ⟨by decide,
    (c7_submission_timestamps Dispatcher.fresh Dispatcher.fresh 42
      (str "CREATE") (str "") (str "O") (str "") 1 none (by decide)
      (by decide)).1.1⟩

/-!
## The middleware chain on a rejected request
-/

theorem lim0_rejects : (lim0.allowAt 0).1 = false := by
  have hadv : lim0.advance 0 = 0 := by
    simp [Limiter.advance, lim0]
  simp only [Limiter.allowAt, hadv]
  norm_num

theorem rejected_chain (h : HttpHandler) (req : Request) (s : ServerState)
    (hp : ¬req.urlPath = str "/metrics")
    (hr : (s.limiter.allowAt s.now).1 = false) :
    appliedChain h req s =
      ([429],
        { s with
            limiter := (s.limiter.allowAt s.now).2,
            errs := handleError s.errs s.nowClock (str "rate_limit") none
              (str "Rate limit exceeded for request: " ++ req.urlPath),
            metrics := { s.metrics with
              totalRequests := s.metrics.totalRequests ++
                [(req.method, req.routeTemplate.getD req.urlPath, natStr 429)],
              durationObs := s.metrics.durationObs ++
                [(req.method, req.routeTemplate.getD req.urlPath)],
              errorsTotal := s.metrics.errorsTotal ++
                [(req.method, req.routeTemplate.getD req.urlPath,
                  str "client_error")] } }) := by
  simp only [appliedChain, MetricsMiddleware, RateLimitMiddleware, hp,
    if_false, ite_false, eq_self_iff_true, if_neg hp, hr, Bool.false_eq_true,
    recordedStatus, List.foldl_cons, List.foldl_nil, newResponseWriter,
    RespWriter.writeHeader]
  norm_num

/-!
## The token bucket
-/

theorem allowTimes_all_succeed (k : Nat) :
    ∀ (l : Limiter) (t : ℚ), l.last = t → l.tokens ≤ l.burst →
      ((k : ℚ)) ≤ l.tokens →
      l.allowTimes t k =
        (List.replicate k true,
          { l with tokens := l.tokens - (k : ℚ), last := t }) := by
  induction k with
  | zero =>
    intro l t h1 h2 h3
    subst h1
    simp [Limiter.allowTimes]
  | succ k ih =>
    intro l t h1 h2 h3
    have hcast : ((k : ℚ)) + 1 ≤ l.tokens := by
      push_cast at h3; linarith
    have hk0 : (0 : ℚ) ≤ (k : ℚ) := Nat.cast_nonneg k
    have h1le : (1 : ℚ) ≤ l.tokens := by linarith
    have hadv : l.advance t = l.tokens := by
      rw [Limiter.advance, h1]
      simp [min_eq_right h2]
    have hstep : l.allowAt t =
        (true, { l with tokens := l.tokens - 1, last := t }) := by
      simp only [Limiter.allowAt, hadv, if_pos h1le]
    have hih := ih { l with tokens := l.tokens - 1, last := t } t rfl
      (by simp only; linarith) (by simp only; linarith)
    have htok : l.tokens - 1 - (k : ℚ) = l.tokens - ((k + 1 : Nat) : ℚ) := by
      push_cast; ring
    simp only [Limiter.allowTimes, hstep, hih, List.replicate_succ, htok]

/-- Claim C6: for the gate of `rate_limiter.go` (R = 1000 tokens/s, burst
B = 5000), 5000 `Allow` calls at one instant all succeed, the 5001st at the
same instant fails, and one second later with no further consumption exactly
1000 tokens have refilled, a quantity bounded by the burst ceiling. -/
theorem c6_token_bucket :
    (globalLimiter.allowTimes 0 5000).1 = List.replicate 5000 true ∧
      ((globalLimiter.allowTimes 0 5000).2.allowAt 0).1 = false ∧
      (globalLimiter.allowTimes 0 5000).2.advance 1 = 1000 ∧
      (globalLimiter.allowTimes 0 5000).2.advance 1 ≤ globalLimiter.burst := by
  have hmain := allowTimes_all_succeed 5000 globalLimiter 0 rfl
    (by norm_num [globalLimiter, newLimiter])
    (by norm_num [globalLimiter, newLimiter])
  have hL : (globalLimiter.allowTimes 0 5000).2 =
      { limit := 1000, burst := 5000, tokens := 0, last := 0 } := by
    rw [hmain]
    norm_num [globalLimiter, newLimiter, Limiter.mk.injEq]
  have hadv0 :
      (Limiter.mk 1000 5000 0 0).advance 0 = 0 := by
    rw [Limiter.advance]
    simp [min_def]
  have hadv1 :
      (Limiter.mk 1000 5000 0 0).advance 1 = 1000 := by
    rw [Limiter.advance]
    simp only
    norm_num [min_def]
  refine ⟨by rw [hmain], ?_, ?_, ?_⟩
  · rw [hL]
    simp only [Limiter.allowAt, hadv0]
    norm_num
  · rw [hL]; exact hadv1
  · rw [hL, hadv1]
    norm_num [globalLimiter, newLimiter]

/-- Counterexample to C2 as stated: a request rejected by the admission gate
does not bypass the observation middleware — starting from zeroed counters,
the rejected request leaves one `http_requests_total` increment labelled with
status 429 and one `http_request_duration_seconds` observation. -/
theorem c2_counterexample :
    (appliedChain h200 req0 st0).2.metrics.totalRequests =
        [(str "GET", str "/api/users", natStr 429)] ∧
      (appliedChain h200 req0 st0).2.metrics.durationObs =
        [(str "GET", str "/api/users")] ∧
      (appliedChain h200 req0 st0).1 = [429] := by
  have hch := rejected_chain h200 req0 st0 (by decide)
    (by simpa [st0] using lim0_rejects)
  rw [hch]
  refine ⟨?_, ?_, rfl⟩ <;> simp [st0, req0, MetricsState.empty]

/-- Claim C2 (amended): every request (other than to `/metrics`) rejected by
the admission gate still passes through the observation middleware, which is
outermost in the chain: the rejection is recorded with exactly one
`http_requests_total` increment labelled with status 429, one request-duration
observation, and one `client_error` increment, whatever the business handler
is. -/
theorem c2_rejected_observed (h : HttpHandler) (req : Request)
    (s : ServerState) (hp : ¬req.urlPath = str "/metrics")
    (hr : (s.limiter.allowAt s.now).1 = false) :
    (appliedChain h req s).1 = [429] ∧
      (appliedChain h req s).2.metrics.totalRequests =
        s.metrics.totalRequests ++
          [(req.method, req.routeTemplate.getD req.urlPath, natStr 429)] ∧
      (appliedChain h req s).2.metrics.durationObs =
        s.metrics.durationObs ++
          [(req.method, req.routeTemplate.getD req.urlPath)] ∧
      (appliedChain h req s).2.metrics.errorsTotal =
        s.metrics.errorsTotal ++
          [(req.method, req.routeTemplate.getD req.urlPath,
            str "client_error")] := by
  rw [rejected_chain h req s hp hr]
  exact ⟨rfl, rfl, rfl, rfl⟩

/-- Witness for C2 (amended) at a concrete rejected request. -/
theorem c2_witness :
    ¬req0.urlPath = str "/metrics" ∧
      (appliedChain h200 req0 st0).1 = [429] :=
  ⟨by decide,
    (c2_rejected_observed h200 req0 st0 (by decide)
      (by simpa [st0] using lim0_rejects)).1⟩

/-- Counterexample to C3 as stated: after a rejected request the
`rate_limit_hits_total` counter is still zero — `RateLimitMiddleware` never
calls `IncrementRateLimitHits` (which would have made it one), so the
rejection-counter half of the claimed side effect does not happen. -/
theorem c3_counterexample :
    (appliedChain h200 req0 st0).2.metrics.rateLimitHits = 0 ∧
      (IncrementRateLimitHits MetricsState.empty).rateLimitHits = 1 := by
  have hch := rejected_chain h200 req0 st0 (by decide)
    (by simpa [st0] using lim0_rejects)
  rw [hch]
  exact ⟨rfl, rfl⟩

/-- Claim C3 (amended): on rejection the admission gate terminates the
request with the fixed status 429 and no further processing (the outcome is
the same whatever downstream handler is installed), and fires exactly one
fire-and-forget `HandleError` submission to the error dispatcher — but it
does not increment the `rate_limit_hits_total` rejection counter, which stays
unchanged. -/
theorem c3_rejection_effects (next : HttpHandler) (req : Request)
    (s : ServerState) (hr : (s.limiter.allowAt s.now).1 = false) :
    RateLimitMiddleware next req s =
      ([429],
        { s with
            limiter := (s.limiter.allowAt s.now).2,
            errs := handleError s.errs s.nowClock (str "rate_limit") none
              (str "Rate limit exceeded for request: " ++ req.urlPath) }) ∧
      (∀ next' : HttpHandler,
        RateLimitMiddleware next' req s = RateLimitMiddleware next req s) ∧
      (RateLimitMiddleware next req s).2.metrics.rateLimitHits =
        s.metrics.rateLimitHits := by
  have base : ∀ n : HttpHandler, RateLimitMiddleware n req s =
      ([429],
        { s with
            limiter := (s.limiter.allowAt s.now).2,
            errs := handleError s.errs s.nowClock (str "rate_limit") none
              (str "Rate limit exceeded for request: " ++ req.urlPath) }) := by
    intro n
    simp [RateLimitMiddleware, hr]
  refine ⟨base next, ?_, ?_⟩
  · intro next'
    rw [base next', base next]
  · rw [base next]

/-- Witness for C3 (amended) at a concrete rejected request. -/
theorem c3_witness :
    (RateLimitMiddleware h200 req0 st0).2.metrics.rateLimitHits =
      st0.metrics.rateLimitHits :=
  (c3_rejection_effects h200 req0 st0
    (by simpa [st0] using lim0_rejects)).2.2

/-- Claim C4 (amended): when a dispatcher's queue is full, `submit` does not
enqueue the payload, leaves the pending counter and the primary sink
untouched, and synchronously appends one line to the overflow sink, tagged
distinctly — `[AUDIT] [OVERFLOW]` for audit, `[ERROR] [OVERFLOW]` for error
records, and `[NOTIFICATION OVERFLOW]` for notifications. -/
theorem c4_overflow_inline (da : Dispatcher LogEntry)
    (dn : Dispatcher Notification) (de : Dispatcher ErrorEntry)
    (now : GoTime) (action det ntype msg op ctx : Str) (uid nuid : Nat)
    (err : Option Str)
    (ha : chanCap ≤ da.queue.length) (hn : chanCap ≤ dn.queue.length)
    (he : chanCap ≤ de.queue.length) :
    (logUserAction da now action uid det =
        { da with overflow := da.overflow ++
            [auditOverflowLine
              { action := action, userID := uid, details := det,
                timestamp := now }] } ∧
      startsW (str "[AUDIT] [OVERFLOW]")
        (auditOverflowLine
          { action := action, userID := uid, details := det,
            timestamp := now }) = true) ∧
    (sendNotification dn nuid ntype msg =
        { dn with overflow := dn.overflow ++
            [notificationOverflowLine
              { userID := nuid, ntype := ntype, message := msg }] } ∧
      startsW (str "[NOTIFICATION OVERFLOW]")
        (notificationOverflowLine
          { userID := nuid, ntype := ntype, message := msg }) = true) ∧
    (handleError de now op err ctx =
        { de with overflow := de.overflow ++
            [errorOverflowLine
              { operation := op, errorMsg := err, context := ctx,
                timestamp := now }] } ∧
      startsW (str "[ERROR] [OVERFLOW]")
        (errorOverflowLine
          { operation := op, errorMsg := err, context := ctx,
            timestamp := now }) = true) := by
  refine ⟨⟨?_, ?_⟩, ⟨?_, ?_⟩, ⟨?_, ?_⟩⟩
  · exact submit_full _ _ _ _ ha
  · show startsW (str "[AUDIT] [OVERFLOW]")
      (str "[AUDIT] " ++ (str "[OVERFLOW] Action: " ++ (action ++
        (str " | UserID: " ++ (natStr uid ++
          (str " | Details: " ++ det)))))) = true
    exact startsW_extend2 _ _ _ _ (by decide)
  · exact submit_full _ _ _ _ hn
  · show startsW (str "[NOTIFICATION OVERFLOW]")
      (str "[NOTIFICATION OVERFLOW] Type: " ++ (ntype ++
        (str " | UserID: " ++ natStr nuid))) = true
    exact startsW_extend _ _ _ (by decide)
  · exact submit_full _ _ _ _ he
  · show startsW (str "[ERROR] [OVERFLOW]")
      (str "[ERROR] " ++ (str "[OVERFLOW] Operation: " ++ (op ++
        (str " | Error: " ++ errStr err)))) = true
    exact startsW_extend2 _ _ _ _ (by decide)

/-!
## String-normalisation lemmas for the user store
-/

theorem dwHead {p : Nat → Bool} (l : Str) (a : Nat)
    (h : (l.dropWhile p).head? = some a) : p a = false := by
  induction l with
  | nil => simp at h
  | cons c l ih =>
    by_cases hc : p c
    · rw [List.dropWhile_cons, if_pos hc] at h
      exact ih h
    · rw [List.dropWhile_cons, if_neg hc] at h
      simp only [List.head?_cons, Option.some.injEq] at h
      rw [← h]
      exact Bool.eq_false_iff.mpr hc

theorem dwFixOfHead {p : Nat → Bool} (l : Str)
    (h : ∀ a, l.head? = some a → p a = false) : l.dropWhile p = l := by
  cases l with
  | nil => rfl
  | cons a l =>
    rw [List.dropWhile_cons, if_neg]
    rw [h a rfl]
    simp

theorem dwFixOfAll {p : Nat → Bool} (l : Str)
    (h : ∀ c ∈ l, p c = false) : l.dropWhile p = l := by
  apply dwFixOfHead
  intro a ha
  cases l with
  | nil => simp at ha
  | cons c l =>
    simp only [List.head?_cons, Option.some.injEq] at ha
    rw [← ha]
    exact h c (List.mem_cons_self c l)

theorem trimLFixHead (m : Str) (h : trimL m = m) :
    ∀ a, m.head? = some a → isSpaceRune a = false := by
  intro a ha
  cases m with
  | nil => simp at ha
  | cons c l =>
    simp only [List.head?_cons, Option.some.injEq] at ha
    rw [← ha]
    cases hws : isSpaceRune c
    · rfl
    · exfalso
      have hTL : trimL (c :: l) = l.dropWhile isSpaceRune := by
        simp [trimL, List.dropWhile_cons, hws]
      have hlen : (trimL (c :: l)).length ≤ l.length := by
        rw [hTL]
        exact (List.dropWhile_suffix isSpaceRune).sublist.length_le
      rw [h] at hlen
      simp at hlen

theorem trimRIsPre (m : Str) : ∃ t, m = trimR m ++ t := by
  obtain ⟨t, ht⟩ := List.dropWhile_suffix (l := m.reverse) (p := isSpaceRune)
  refine ⟨t.reverse, ?_⟩
  have h2 := congrArg List.reverse ht
  simp only [List.reverse_append, List.reverse_reverse] at h2
  rw [trimR]
  exact h2.symm

theorem trimLTrimR (m : Str) (h : trimL m = m) :
    trimL (trimR m) = trimR m := by
  apply dwFixOfHead
  intro a ha
  obtain ⟨t, ht⟩ := trimRIsPre m
  cases htm : trimR m with
  | nil => rw [htm] at ha; simp at ha
  | cons b rest =>
    rw [htm] at ha
    simp only [List.head?_cons, Option.some.injEq] at ha
    rw [htm] at ht
    refine trimLFixHead m h a ?_
    rw [ht, ← ha]
    rfl

theorem trimLIdem (l : Str) : trimL (trimL l) = trimL l :=
  List.dropWhile_idempotent isSpaceRune l

theorem trimRIdem (l : Str) : trimR (trimR l) = trimR l := by
  rw [trimR, trimR, List.reverse_reverse, List.dropWhile_idempotent]

theorem trimSpace_idem (l : Str) : trimSpace (trimSpace l) = trimSpace l := by
  rw [trimSpace, trimSpace, trimLTrimR (trimL l) (trimLIdem l), trimRIdem]

theorem trimSpaceFixOfAll (l : Str) (h : ∀ c ∈ l, isSpaceRune c = false) :
    trimSpace l = l := by
  have h1 : trimL l = l := dwFixOfAll l h
  have h2 : trimR l = l := by
    rw [trimR,
      dwFixOfAll l.reverse (fun c hc => h c (List.mem_reverse.mp hc))]
    exact List.reverse_reverse l
  rw [trimSpace, h1, h2]

theorem toLowerRuneIdem (c : Nat) :
    toLowerRune (toLowerRune c) = toLowerRune c := by
  by_cases h : 65 ≤ c ∧ c ≤ 90
  · simp only [toLowerRune, if_pos h]
    rw [if_neg (by omega)]
  · simp only [toLowerRune, if_neg h]

theorem toLowerStrIdem (l : Str) : toLowerStr (toLowerStr l) = toLowerStr l := by
  induction l with
  | nil => rfl
  | cons a l ih =>
    simp only [toLowerStr, List.map_cons, List.map_map] at ih ⊢
    rw [toLowerRuneIdem]
    exact congrArg _ ih

theorem localNoSpace (c : Nat) (h : isLocalRune c = true) :
    isSpaceRune c = false := by
  simp [isLocalRune, isAlnumRune, isAlphaRune] at h
  simp [isSpaceRune]
  omega

theorem domainNoSpace (c : Nat) (h : isDomainRune c = true) :
    isSpaceRune c = false := by
  simp [isDomainRune, isAlnumRune, isAlphaRune] at h
  simp [isSpaceRune]
  omega

theorem alphaNoSpace (c : Nat) (h : isAlphaRune c = true) :
    isSpaceRune c = false := by
  simp [isAlphaRune] at h
  simp [isSpaceRune]
  omega

theorem matchDomainNoSpace (d : Str) (h : matchDomain d = true) :
    ∀ c ∈ d, isSpaceRune c = false := by
  intro c hc
  rw [matchDomain] at h
  rcases hsplit : d.reverse.dropWhile isAlphaRune with _ | ⟨hd, body⟩ <;>
    rw [hsplit] at h
  · simp at h
  · simp only [Bool.and_eq_true, beq_iff_eq] at h
    obtain ⟨⟨⟨h46, _⟩, _⟩, hbody⟩ := h
    have hmem : c ∈ d.reverse := List.mem_reverse.mpr hc
    rw [← List.takeWhile_append_dropWhile (p := isAlphaRune)
      (l := d.reverse), hsplit] at hmem
    rcases List.mem_append.mp hmem with h1 | h2
    · exact alphaNoSpace c (List.mem_takeWhile_imp h1)
    · rcases List.mem_cons.mp h2 with h3 | h4
      · rw [h3, h46]; rfl
      · exact domainNoSpace c (List.all_eq_true.mp hbody c h4)

theorem matchEmailNoSpace (s : Str) (h : matchEmail s = true) :
    ∀ c ∈ s, isSpaceRune c = false := by
  intro c hc
  rw [matchEmail] at h
  rcases hsplit : s.dropWhile (fun c => !(c == 64)) with _ | ⟨hd, domain⟩ <;>
    rw [hsplit] at h
  · simp at h
  · simp only [Bool.and_eq_true] at h
    obtain ⟨⟨⟨_, hlocal⟩, _⟩, hdom⟩ := h
    have hhd : hd = 64 := by
      have hh := dwHead (p := fun c => !(c == 64)) s hd (by rw [hsplit]; rfl)
      simpa using hh
    have hmem : c ∈ s.takeWhile (fun c => !(c == 64)) ++ hd :: domain := by
      rw [← hsplit, List.takeWhile_append_dropWhile]
      exact hc
    rcases List.mem_append.mp hmem with h1 | h2
    · exact localNoSpace c (List.all_eq_true.mp hlocal c h1)
    · rcases List.mem_cons.mp h2 with h3 | h4
      · rw [h3, hhd]; rfl
      · exact matchDomainNoSpace domain hdom c h4

theorem validateNone (u : User) (h : u.validate = none) :
    trimSpace u.name ≠ [] ∧ 2 ≤ u.name.length ∧ u.name.length ≤ 100 ∧
      matchEmail u.email = true := by
  rw [User.validate] at h
  split at h
  · simp at h
  · split at h
    · simp at h
    · split at h
      · simp at h
      · split at h
        · simp at h
        · split at h
          · simp at h
          · rename_i h1 h2 h3 h4 h5
            refine ⟨h1, by omega, by omega, ?_⟩
            simpa using h5

theorem goodUserOfValid (raw : User)
    (h : (User.sanitize raw).validate = none) (v : User)
    (hn : v.name = (User.sanitize raw).name)
    (he : v.email = (User.sanitize raw).email) : goodUser v := by
  obtain ⟨_, h2, h3, h4⟩ := validateNone _ h
  refine ⟨?_, ?_, ?_, ?_, ?_, ?_⟩
  · rw [hn]
    exact trimSpace_idem raw.name
  · rw [hn]; exact h2
  · rw [hn]; exact h3
  · rw [he]
    exact trimSpaceFixOfAll _ (matchEmailNoSpace _ h4)
  · rw [he]
    exact toLowerStrIdem _
  · rw [he]; exact h4

/-!
## Association-list lemmas for the user store
-/

theorem memMapSet (k : Int) (v : User) (m : List (Int × User))
    (p : Int × User) (hp : p ∈ mapSet k v m) : p = (k, v) ∨ p ∈ m := by
  induction m with
  | nil =>
    simp only [mapSet, List.mem_singleton] at hp
    exact Or.inl hp
  | cons q m ih =>
    simp only [mapSet] at hp
    by_cases hq : q.1 = k
    · rw [if_pos hq] at hp
      rcases List.mem_cons.mp hp with h1 | h2
      · exact Or.inl h1
      · exact Or.inr (List.mem_cons_of_mem q h2)
    · rw [if_neg hq] at hp
      rcases List.mem_cons.mp hp with h1 | h2
      · exact Or.inr (h1 ▸ List.mem_cons_self q m)
      · rcases ih h2 with h3 | h4
        · exact Or.inl h3
        · exact Or.inr (List.mem_cons_of_mem q h4)

theorem memMapDel (k : Int) (m : List (Int × User)) (p : Int × User)
    (hp : p ∈ mapDel k m) : p ∈ m := by
  induction m with
  | nil => simp [mapDel] at hp
  | cons q m ih =>
    simp only [mapDel] at hp
    by_cases hq : q.1 = k
    · rw [if_pos hq] at hp
      exact List.mem_cons_of_mem q (ih hp)
    · rw [if_neg hq] at hp
      rcases List.mem_cons.mp hp with h1 | h2
      · exact h1 ▸ List.mem_cons_self q m
      · exact List.mem_cons_of_mem q (ih h2)

theorem mapFindSetSelf (k : Int) (v : User) (m : List (Int × User)) :
    mapFind k (mapSet k v m) = some v := by
  induction m with
  | nil => simp [mapSet, mapFind]
  | cons q m ih =>
    by_cases hq : q.1 = k
    · simp [mapSet, hq, mapFind]
    · simp [mapSet, hq, mapFind, ih]

theorem mapFindSetNe (k k' : Int) (v : User) (m : List (Int × User))
    (hk : k' ≠ k) : mapFind k' (mapSet k v m) = mapFind k' m := by
  have hkk : ¬k = k' := fun h => hk h.symm
  induction m with
  | nil => simp [mapSet, mapFind, hkk]
  | cons q m ih =>
    by_cases hq : q.1 = k
    · have hq' : ¬q.1 = k' := by rw [hq]; exact hkk
      simp [mapSet, hq, mapFind, hkk, hq']
    · simp [mapSet, hq, mapFind, ih]

/-!
## Claims C9 and C10: the user store
-/

/-- Claim C9: the store invariant — every stored record has a trimmed name of
length 2–100 and a trimmed, lowercase email matching the email pattern — is
preserved by `Create`, `Update`, `Delete` and `Clear` (the operations
sanitize then validate before storing), and on a validation failure `Create`
and `Update` leave the store unchanged. -/
theorem c9_store_invariant (s : UserService) (u : User) (id : Int)
    (h : storeInv s) :
    storeInv (s.create u).2 ∧ storeInv (s.update id u).2 ∧
      storeInv (s.delete id).2 ∧ storeInv s.clear ∧
      (∀ e, (s.create u).1 = .error e → (s.create u).2 = s) ∧
      (∀ e, (s.update id u).1 = .error e → (s.update id u).2 = s) := by
  refine ⟨?_, ?_, ?_, ?_, ?_, ?_⟩
  · rcases hv : (User.sanitize u).validate with _ | e0
    · intro p hp
      simp only [UserService.create, hv] at hp
      rcases memMapSet _ _ _ _ hp with h1 | h2
      · rw [h1]
        exact goodUserOfValid u hv _ rfl rfl
      · exact h p h2
    · intro p hp
      simp only [UserService.create, hv] at hp
      exact h p hp
  · rcases hv : (User.sanitize u).validate with _ | e0
    · rcases hf : mapFind id s.users with _ | old
      · intro p hp
        simp only [UserService.update, hv, hf] at hp
        exact h p hp
      · intro p hp
        simp only [UserService.update, hv, hf] at hp
        rcases memMapSet _ _ _ _ hp with h1 | h2
        · rw [h1]
          exact goodUserOfValid u hv _ rfl rfl
        · exact h p h2
    · intro p hp
      simp only [UserService.update, hv] at hp
      exact h p hp
  · rcases hf : mapFind id s.users with _ | old
    · intro p hp
      simp only [UserService.delete, hf] at hp
      exact h p hp
    · intro p hp
      simp only [UserService.delete, hf] at hp
      exact h p (memMapDel _ _ _ hp)
  · intro p hp
    simp [UserService.clear, UserService.empty] at hp
  · intro e he
    rcases hv : (User.sanitize u).validate with _ | e0
    · simp [UserService.create, hv] at he
    · simp [UserService.create, hv]
  · intro e he
    rcases hv : (User.sanitize u).validate with _ | e0
    · rcases hf : mapFind id s.users with _ | old
      · simp [UserService.update, hv, hf]
      · simp [UserService.update, hv, hf] at he
    · simp [UserService.update, hv]

/-- Witness for C9 at the empty store. -/
theorem c9_witness : storeInv (UserService.empty.create uEx).2 :=
  (c9_store_invariant UserService.empty uEx 0
    (by intro p hp; simp [UserService.empty] at hp)).1

/-- Claim C10: `Update` only touches the `Name` and `Email` fields of the
record stored under the updated id: on success the stored record keeps its
old `ID` field whatever id the payload carries, takes the sanitized payload's
name and email, and every other key maps to exactly what it mapped to before;
on any error (validation failure or user not found) the whole store — and the
id counter — is unchanged. -/
theorem c10_update_frame (s : UserService) (id : Int) (u : User) :
    (∀ e, (s.update id u).1 = .error e → (s.update id u).2 = s) ∧
      (∀ k, k ≠ id → mapFind k (s.update id u).2.users = mapFind k s.users) ∧
      (∀ old, mapFind id s.users = some old →
        ∀ r, (s.update id u).1 = .ok r →
          r.id = old.id ∧ r.name = (User.sanitize u).name ∧
            r.email = (User.sanitize u).email ∧
            mapFind id (s.update id u).2.users = some r) ∧
      (s.update id u).2.idCounter = s.idCounter := by
  rcases hv : (User.sanitize u).validate with _ | e0
  · rcases hf : mapFind id s.users with _ | old0
    · refine ⟨?_, ?_, ?_, ?_⟩
      · intro e _; simp [UserService.update, hv, hf]
      · intro k _; simp [UserService.update, hv, hf]
      · intro old hold
        simp at hold
      · simp [UserService.update, hv, hf]
    · refine ⟨?_, ?_, ?_, ?_⟩
      · intro e he
        simp [UserService.update, hv, hf] at he
      · intro k hk
        simp only [UserService.update, hv, hf]
        exact mapFindSetNe id k _ s.users hk
      · intro old hold r hr
        simp only [Option.some.injEq] at hold
        simp only [UserService.update, hv, hf, Except.ok.injEq] at hr
        subst hold
        refine ⟨?_, ?_, ?_, ?_⟩
        · rw [← hr]
        · rw [← hr]
        · rw [← hr]
        · simp only [UserService.update, hv, hf]
          rw [mapFindSetSelf, hr]
      · simp [UserService.update, hv, hf]
  · refine ⟨?_, ?_, ?_, ?_⟩
    · intro e _; simp [UserService.update, hv]
    · intro k _; simp [UserService.update, hv]
    · intro old _ r hr
      simp [UserService.update, hv] at hr
    · simp [UserService.update, hv]

/-- Witness for C10: updating key 1 leaves key 2's binding untouched. -/
theorem c10_witness :
    mapFind 2 (sEx.update 1 uEx).2.users = mapFind 2 sEx.users :=
  (c10_update_frame sEx 1 uEx).2.1 2 (by decide)

/-- Witness for C4 (amended) at a full notification dispatcher and full
audit/error dispatchers. -/
theorem c4_witness :
    chanCap ≤ fullNotif.queue.length ∧
      sendNotification fullNotif 1 (str "WELCOME") (str "hello") =
        { fullNotif with overflow := fullNotif.overflow ++
            [notificationOverflowLine notif0] } :=
  ⟨by simp [fullNotif, Dispatcher.fresh],
    by
      have := (c4_overflow_inline
        { (Dispatcher.fresh : Dispatcher LogEntry) with
            queue := List.replicate chanCap
              { action := str "A", userID := 0, details := str "",
                timestamp := 0 } }
        fullNotif
        { (Dispatcher.fresh : Dispatcher ErrorEntry) with
            queue := List.replicate chanCap
              { operation := str "O", errorMsg := none, context := str "",
                timestamp := 0 } }
        0 (str "A") (str "") (str "WELCOME") (str "hello") (str "O") (str "")
        0 1 none
        (by simp [Dispatcher.fresh])
        (by simp [fullNotif, Dispatcher.fresh])
        (by simp [Dispatcher.fresh])).2.1.1
      simpa [notif0] using this⟩


